import Mathlib

/-!
Verification of the Audio Vocoder effect engine.

The visible source of the repository is the UI layer (`src/app.py`) and plotting
helpers (`src/utils/visualization.py`).  The effect engine itself
(`audio_processor` module: `AudioProcessor`, the four effects and their
parameter schemas) and the file helpers (`utils.file_utils`, `config`) are
not under `src/`; they are modelled here from the specification, while the
control flow of `main` and `process_and_display_audio` is embedded from
`src/app.py` directly.  Samples are exact rationals, sample rates are
naturals, parameter maps are association lists from key to rational.
-/

namespace Vocoder

/-- A decoded audio buffer: ordered samples plus a sample rate (spec section 3). -/
structure SampleBuffer where
  samples : List ℚ
  sample_rate : ℕ
deriving DecidableEq, Repr

/-- One entry of a parameter schema: key, numeric range, default and step
(spec section 3). -/
structure SchemaEntry where
  key : String
  min : ℚ
  max : ℚ
  default : ℚ
  step : ℚ
deriving DecidableEq, Repr

/-- Parameter values supplied by the caller: a key/value association list. -/
abbrev Params := List (String × ℚ)

/-- The error taxonomy of spec section 7, plus the load failure of
the codec collaborator. -/
inductive Err where
  | invalidParameter
  | invalidInput
  | unknownEffect
  | processingError
  | loadFailure
deriving DecidableEq, Repr

/-- The four effect variants, as the tagged-variant dispatch of spec
section 9. -/
inductive EffectKind where
  | robot
  | pitch
  | speed
  | echo
deriving DecidableEq, Repr

/-- Clamp a value into the closed interval from `lo` to `hi`. -/
def clampQ (lo hi v : ℚ) : ℚ := Max.max lo (Min.min hi v)

/-- Fractional part of a rational. -/
def fracPart (q : ℚ) : ℚ := q - ⌊q⌋

/-- Modelled from the spec: the RobotEffect parameter schema (`audio_processor`
is not under `src/`); carrier frequency and modulation depth with
representative UI bounds. -/
def robotSchema : List SchemaEntry :=
  [⟨"carrier_freq_hz", 50, 2000, 200, 10⟩, ⟨"depth", 0, 1, 1/2, 1/20⟩]

/-- Modelled from the spec: the PitchShiftEffect parameter schema. -/
def pitchSchema : List SchemaEntry :=
  [⟨"semitones", -12, 12, 0, 1⟩]

/-- Modelled from the spec: the SpeedChangeEffect parameter schema; the
min/max bounds 0.1 and 4.0 are the ones named in spec section 4.3. -/
def speedSchema : List SchemaEntry :=
  [⟨"speed_factor", 1/10, 4, 1, 1/10⟩]

/-- Modelled from the spec: the EchoEffect parameter schema; feedback is
bounded by the stability ceiling 0.95 of spec section 4.4. -/
def echoSchema : List SchemaEntry :=
  [⟨"delay_seconds", 1/20, 2, 1/2, 1/20⟩,
   ⟨"feedback", 0, 19/20, 1/2, 1/20⟩,
   ⟨"decay", 0, 1, 4/5, 1/20⟩]

/-- The declared schema of each effect. -/
def effectSchema : EffectKind → List SchemaEntry
  | .robot => robotSchema
  | .pitch => pitchSchema
  | .speed => speedSchema
  | .echo => echoSchema

/-- Modelled from the spec: the square-wave carrier oscillator of
RobotEffect (section 4.1), evaluated at running sample index `i` divided by
the sample rate. -/
def squareCarrier (freq : ℚ) (sr : ℕ) (i : ℕ) : ℚ :=
  if fracPart (freq * i / sr) < 1/2 then 1 else -1

/-- Modelled from the spec: RobotEffect.apply (section 4.1).  Rejects a
non-positive carrier frequency, clamps depth to the unit interval, and
amplitude-modulates sample-by-sample. -/
def applyRobot (buf : SampleBuffer) (ps : Params) : Except Err SampleBuffer :=
  let freq := (ps.lookup "carrier_freq_hz").getD 200
  let depth := clampQ 0 1 ((ps.lookup "depth").getD (1/2))
  if freq ≤ 0 then .error .invalidParameter
  else
    .ok ⟨(List.range buf.samples.length).map
           (fun i => buf.samples.getD i 0 *
             ((1 - depth) + depth * squareCarrier freq buf.sample_rate i)),
         buf.sample_rate⟩

/-- Linear interpolation of a sample list at a fractional position (spec
glossary: resampling). -/
def lerpAt (xs : List ℚ) (p : ℚ) : ℚ :=
  (1 - fracPart p) * xs.getD (⌊p⌋).toNat 0 + fracPart p * xs.getD ((⌊p⌋).toNat + 1) 0

/-- Modelled from the spec: fractional-position resampling shared by
SpeedChangeEffect and the pitch-shift pipeline — output index `i` reads the
input at fractional position `i * step`, producing
`round (input_length / step)` samples (spec section 4.3). -/
def resampleLinear (xs : List ℚ) (step : ℚ) : List ℚ :=
  (List.range (round ((xs.length : ℚ) / step)).toNat).map
    (fun (i : ℕ) => lerpAt xs ((i : ℚ) * step))

/-- Modelled from the spec: SpeedChangeEffect.apply (section 4.3).  Rejects
non-positive speed factors, bounds the factor into [0.1, 4.0], and resamples
the time axis. -/
def applySpeed (buf : SampleBuffer) (ps : Params) : Except Err SampleBuffer :=
  let s := (ps.lookup "speed_factor").getD 1
  if s ≤ 0 then .error .invalidParameter
  else
    let sc := clampQ (1/10) 4 s
    .ok ⟨resampleLinear buf.samples sc, buf.sample_rate⟩

/-- Analysis frame size of the pitch-shift pipeline (spec section 4.2 names
2048 as the representative fixed constant). -/
def frameSize : ℕ := 2048

/-- Pad a sample list with zeros up to length `m` (identity when already at
least that long). -/
def padTo (m : ℕ) (xs : List ℚ) : List ℚ :=
  xs ++ List.replicate (m - xs.length) 0

/-- Truncate or zero-pad a sample list to exactly `n` samples. -/
def fitLength (n : ℕ) (xs : List ℚ) : List ℚ :=
  if n ≤ xs.length then xs.take n else xs ++ List.replicate (n - xs.length) 0

/-- Modelled from the spec: a computable rational stand-in for `2 ^ x`
(the exact value is transcendental); exact at integer arguments, positive
everywhere, and equal to 1 at 0 — the only facts the contracts rely on. -/
def twoPowQ (x : ℚ) : ℚ := (2 : ℚ) ^ (⌊x⌋) * (1 + fracPart x)

/-- Modelled from the spec: the pitch ratio `2 ^ (semitones / 12)` of spec
section 4.2, via the computable approximation `twoPowQ`. -/
def pitchRatioOf (s : ℚ) : ℚ := twoPowQ (s / 12)

/-- Modelled from the spec: PitchShiftEffect.apply (section 4.2).  Zero-pads
input shorter than one analysis frame, time-stretches internally by the
reciprocal of the pitch ratio, resamples the time axis by the ratio, and
truncates or pads back to the original length; sample rate is unchanged. -/
def applyPitch (buf : SampleBuffer) (ps : Params) : Except Err SampleBuffer :=
  let s := (ps.lookup "semitones").getD 0
  let r := pitchRatioOf s
  let padded := padTo frameSize buf.samples
  .ok ⟨fitLength buf.samples.length (resampleLinear (resampleLinear padded r) (1/r)),
       buf.sample_rate⟩

/-- One step of the feedback delay line: given the output and echo-component
lists built so far, append index `k` — the echo component at `k` is
`decay * input (k - d) + feedback * echo (k - d)`, and the output is input
plus echo (spec section 4.4). -/
def echoStep (xs : List ℚ) (d : ℕ) (fb dc : ℚ) (st : List ℚ × List ℚ) (k : ℕ) :
    List ℚ × List ℚ :=
  let e := if d ≤ k then dc * xs.getD (k - d) 0 + fb * st.2.getD (k - d) 0 else 0
  (st.1 ++ [xs.getD k 0 + e], st.2 ++ [e])

/-- Modelled from the spec: the feedback delay line of EchoEffect (section
4.4), built iteratively over `len` output indices.  Returns the output list
and the echo-component list. -/
def echoSamples (xs : List ℚ) (len d : ℕ) (fb dc : ℚ) : List ℚ × List ℚ :=
  (List.range len).foldl (echoStep xs d fb dc) ([], [])

/-- Modelled from the spec: EchoEffect.apply (section 4.4).  Rejects a
non-positive delay, clamps feedback to [0, 0.95], extends a non-empty input
by one delay so the tail rings out, and returns an empty buffer for empty
input (spec section 7: zero-length results are not errors). -/
def applyEcho (buf : SampleBuffer) (ps : Params) : Except Err SampleBuffer :=
  let delay := (ps.lookup "delay_seconds").getD (1/2)
  let fb := clampQ 0 (19/20) ((ps.lookup "feedback").getD (1/2))
  let dc := (ps.lookup "decay").getD (4/5)
  if delay ≤ 0 then .error .invalidParameter
  else
    let d := Max.max 1 (round (delay * buf.sample_rate)).toNat
    let len := if buf.samples.length = 0 then 0 else buf.samples.length + d
    .ok ⟨(echoSamples buf.samples len d fb dc).1, buf.sample_rate⟩

/-- Dispatch of `Effect.apply` over the tagged variants. -/
def applyEffect : EffectKind → SampleBuffer → Params → Except Err SampleBuffer
  | .robot => applyRobot
  | .pitch => applyPitch
  | .speed => applySpeed
  | .echo => applyEcho

/-- The fixed effect registry: the identifiers visible in
`src/app.py` lines 40-45 mapped to the effect variants. -/
def lookupEffect (id : String) : Option EffectKind :=
  if id = "robot" then some .robot
  else if id = "pitch" then some .pitch
  else if id = "speed" then some .speed
  else if id = "echo" then some .echo
  else Option.none

/-- The value the processor hands an effect for a schema entry: the supplied
value (or the schema default when the key is missing) clamped into the
declared range of the entry (spec sections 3 and 4.5). -/
def clampedParamValue (e : SchemaEntry) (ps : Params) : ℚ :=
  clampQ e.min e.max ((ps.lookup e.key).getD e.default)

/-- Modelled from the spec: the processor-boundary validation of section
4.5 — every schema-declared parameter is resolved (default for missing
keys) and clamped into its declared range before reaching the effect. -/
def clampParams (sch : List SchemaEntry) (ps : Params) : Params :=
  sch.map (fun e => (e.key, clampedParamValue e ps))

/-- A filesystem as seen through the codec collaborator: each path either
decodes to a buffer or fails to load. -/
abbrev FileSys := String → Option SampleBuffer

/-- Modelled from the spec: AudioProcessor.process_audio (`audio_processor`
is not under `src/`).  Its caller in `src/app.py` line 73 passes a
filesystem path and receives samples plus sample rate, so the model takes a
path and loads through the codec boundary; effect lookup, parameter
clamping and apply follow spec section 4.5. -/
def process_audio (fs : FileSys) (path : String) (effect_id : String)
    (ps : Params) : Except Err SampleBuffer :=
  match lookupEffect effect_id with
  | Option.none => .error .unknownEffect
  | some kind =>
    match fs path with
    | Option.none => .error .loadFailure
    | some buf => applyEffect kind buf (clampParams (effectSchema kind) ps)

/-- The context dictionary built in `main` (src/app.py lines 168-174),
restricted to the fields the processing call reads. -/
structure Context where
  input_path : String
  selected_effect : String
deriving DecidableEq, Repr

/-- Embedding of the `process_audio` invocation inside
`process_and_display_audio` (src/app.py lines 73-75): the first argument is
the input_path field of the context, a filesystem path.  The subsequent save/display
steps consume the result and are omitted. -/
def process_and_display_audio (fs : FileSys) (ctx : Context) (ps : Params) :
    Except Err SampleBuffer :=
  process_audio fs ctx.input_path ctx.selected_effect ps

/-! ### Helper lemmas -/

theorem le_clampQ (lo hi v : ℚ) : lo ≤ clampQ lo hi v :=
  le_max_left _ _

theorem clampQ_le (lo hi v : ℚ) (h : lo ≤ hi) : clampQ lo hi v ≤ hi :=
  max_le h (min_le_left _ _)

theorem clampQ_pos (lo hi v : ℚ) (h : 0 < lo) : 0 < clampQ lo hi v :=
  lt_of_lt_of_le h (le_clampQ lo hi v)

theorem clampQ_of_mem (lo hi v : ℚ) (h1 : lo ≤ v) (h2 : v ≤ hi) : clampQ lo hi v = v := by
  unfold clampQ
  rw [min_eq_right h2, max_eq_right h1]

theorem getD_range_map (xs : List ℚ) :
    (List.range xs.length).map (fun i => xs.getD i 0) = xs := by
  induction xs with
  | nil => rfl
  | cons a t ih =>
    simp only [List.length_cons, List.range_succ_eq_map, List.map_cons, List.map_map]
    simp only [List.getD_cons_zero, Function.comp_def, List.getD_cons_succ]
    rw [ih]

theorem lerpAt_natCast (xs : List ℚ) (i : ℕ) : lerpAt xs (i : ℚ) = xs.getD i 0 := by
  unfold lerpAt fracPart
  rw [Int.floor_natCast]
  simp

theorem resampleLinear_one (xs : List ℚ) : resampleLinear xs 1 = xs := by
  unfold resampleLinear
  rw [div_one, round_natCast, Int.toNat_natCast]
  calc (List.range xs.length).map (fun (i : ℕ) => lerpAt xs ((i : ℚ) * 1))
      = (List.range xs.length).map (fun i => xs.getD i 0) := by
        refine List.map_congr_left (fun i _ => ?_)
        rw [mul_one, lerpAt_natCast]
    _ = xs := getD_range_map xs

theorem length_resampleLinear (xs : List ℚ) (step : ℚ) :
    (resampleLinear xs step).length = (round ((xs.length : ℚ) / step)).toNat := by
  simp [resampleLinear]

theorem resampleLinear_nil (step : ℚ) : resampleLinear [] step = [] := by
  simp [resampleLinear]

theorem length_fitLength (n : ℕ) (xs : List ℚ) : (fitLength n xs).length = n := by
  unfold fitLength
  split
  · simp
    omega
  · simp
    omega

theorem length_le_padTo (m : ℕ) (xs : List ℚ) : xs.length ≤ (padTo m xs).length := by
  simp [padTo]

theorem fitLength_padTo (m : ℕ) (xs : List ℚ) :
    fitLength xs.length (padTo m xs) = xs := by
  unfold fitLength
  rw [if_pos (length_le_padTo m xs)]
  unfold padTo
  exact List.take_left xs _

theorem fitLength_zero (xs : List ℚ) : fitLength 0 xs = [] := by
  unfold fitLength
  rw [if_pos (Nat.zero_le _)]
  exact List.take_zero xs

theorem pitchRatioOf_zero : pitchRatioOf 0 = 1 := by
  unfold pitchRatioOf twoPowQ fracPart
  norm_num

theorem clampParams_robot_freq (ps : Params) :
    ((clampParams robotSchema ps).lookup "carrier_freq_hz").getD 200
      = clampQ 50 2000 ((ps.lookup "carrier_freq_hz").getD 200) := rfl

theorem clampParams_speed_factor (ps : Params) :
    ((clampParams speedSchema ps).lookup "speed_factor").getD 1
      = clampQ (1/10) 4 ((ps.lookup "speed_factor").getD 1) := rfl

theorem clampParams_echo_delay (ps : Params) :
    ((clampParams echoSchema ps).lookup "delay_seconds").getD (1/2)
      = clampQ (1/20) 2 ((ps.lookup "delay_seconds").getD (1/2)) := rfl

theorem applyRobot_clamped_not_invalid (buf : SampleBuffer) (ps : Params) :
    applyRobot buf (clampParams robotSchema ps) ≠ Except.error Err.invalidParameter := by
  simp only [applyRobot, clampParams_robot_freq]
  rw [if_neg (not_le.mpr (clampQ_pos 50 2000 _ (by norm_num)))]
  simp

theorem applySpeed_clamped_not_invalid (buf : SampleBuffer) (ps : Params) :
    applySpeed buf (clampParams speedSchema ps) ≠ Except.error Err.invalidParameter := by
  simp only [applySpeed, clampParams_speed_factor]
  rw [if_neg (not_le.mpr (clampQ_pos (1/10) 4 _ (by norm_num)))]
  simp

theorem applyEcho_clamped_not_invalid (buf : SampleBuffer) (ps : Params) :
    applyEcho buf (clampParams echoSchema ps) ≠ Except.error Err.invalidParameter := by
  simp only [applyEcho, clampParams_echo_delay]
  rw [if_neg (not_le.mpr (clampQ_pos (1/20) 2 _ (by norm_num)))]
  simp

theorem applyPitch_ok (buf : SampleBuffer) (ps : Params) :
    applyPitch buf ps = Except.ok
      ⟨fitLength buf.samples.length
          (resampleLinear
            (resampleLinear (padTo frameSize buf.samples)
              (pitchRatioOf ((ps.lookup "semitones").getD 0)))
            (1 / pitchRatioOf ((ps.lookup "semitones").getD 0))),
        buf.sample_rate⟩ := rfl

theorem schema_min_le_max :
    ∀ (kind : EffectKind), ∀ e ∈ effectSchema kind, e.min ≤ e.max := by
  intro kind e he
  cases kind <;>
    simp only [effectSchema, robotSchema, pitchSchema, speedSchema, echoSchema] at he <;>
    fin_cases he <;> norm_num

/-! ### Claim theorems -/

/-- C2: before the apply of an effect is invoked, the processor resolves each
schema-declared parameter (falling back to the declared default for missing
keys) and clamps it into the declared [min, max] range rather than
rejecting it — an in-range supplied value passes through unchanged — and
across the processor boundary no parameter value is ever rejected with
InvalidParameter (not even the documented hard-stability values, since the
schema minima already exclude them, so the rejection set is contained in
the documented hard-stability violations). -/
theorem processor_clamps_params :
    (∀ kind : EffectKind, ∀ e ∈ effectSchema kind, ∀ ps : Params,
        e.min ≤ clampedParamValue e ps ∧ clampedParamValue e ps ≤ e.max) ∧
    (∀ kind : EffectKind, ∀ e ∈ effectSchema kind, ∀ ps : Params, ∀ raw : ℚ,
        ps.lookup e.key = some raw → e.min ≤ raw → raw ≤ e.max →
        clampedParamValue e ps = raw) ∧
    (∀ (fs : FileSys) (path id : String) (ps : Params),
        process_audio fs path id ps ≠ Except.error Err.invalidParameter) := by
  refine ⟨?_, ?_, ?_⟩
  · intro kind e he ps
    exact ⟨le_clampQ _ _ _, clampQ_le _ _ _ (schema_min_le_max kind e he)⟩
  · intro kind e he ps raw hl h1 h2
    unfold clampedParamValue
    rw [hl, Option.getD_some]
    exact clampQ_of_mem _ _ _ h1 h2
  · intro fs path id ps
    rcases hk : lookupEffect id with _ | kind
    · simp [ process_audio, hk]
    · rcases hp : fs path with _ | buf
      · simp [ process_audio, hk, hp]
      · simp only [ process_audio, hk, hp]
        cases kind
        case robot => exact applyRobot_clamped_not_invalid buf ps
        case pitch =>
          simp only [applyEffect, effectSchema]
          rw [applyPitch_ok]
          simp
        case speed => exact applySpeed_clamped_not_invalid buf ps
        case echo => exact applyEcho_clamped_not_invalid buf ps

/-- Witness for C2 at the speed_factor entry: an out-of-range value 99 is
clamped into [0.1, 4], the in-range value 2 passes through unchanged, and a
concrete processor invocation is not rejected with InvalidParameter. -/
theorem processor_clamps_params_witness :
    ((⟨"speed_factor", 1/10, 4, 1, 1/10⟩ : SchemaEntry) ∈ effectSchema .speed) ∧
    ((⟨"speed_factor", 1/10, 4, 1, 1/10⟩ : SchemaEntry).min ≤
        clampedParamValue ⟨"speed_factor", 1/10, 4, 1, 1/10⟩ [("speed_factor", 99)] ∧
      clampedParamValue ⟨"speed_factor", 1/10, 4, 1, 1/10⟩ [("speed_factor", 99)] ≤
        (⟨"speed_factor", 1/10, 4, 1, 1/10⟩ : SchemaEntry).max) ∧
    clampedParamValue ⟨"speed_factor", 1/10, 4, 1, 1/10⟩ [("speed_factor", 2)] = 2 ∧
    process_audio (fun _ => Option.none) "p" "speed" [] ≠ Except.error Err.invalidParameter := by
  have hmem : (⟨"speed_factor", 1/10, 4, 1, 1/10⟩ : SchemaEntry) ∈ effectSchema .speed := by
    simp [effectSchema, speedSchema]
  refine ⟨hmem, processor_clamps_params.1 .speed _ hmem [("speed_factor", 99)], ?_, ?_⟩
  · exact processor_clamps_params.2.1 .speed _ hmem [("speed_factor", 2)] 2 rfl
      (by norm_num) (by norm_num)
  · exact processor_clamps_params.2.2 (fun _ => Option.none) "p" "speed" []

/-- C3: for every buffer and every supplied speed_factor in the valid range
[0.1, 4], SpeedChangeEffect.apply succeeds and the output sample count is
round (input_length / speed_factor). -/
theorem speed_output_length (buf : SampleBuffer) (ps : Params) (s : ℚ)
    (hl : ps.lookup "speed_factor" = some s) (h1 : 1/10 ≤ s) (h2 : s ≤ 4) :
    ∃ out, applyEffect .speed buf ps = Except.ok out ∧
      out.samples.length = (round ((buf.samples.length : ℚ) / s)).toNat := by
  have hs0 : ¬ s ≤ 0 := not_le.mpr (lt_of_lt_of_le (by norm_num) h1)
  refine ⟨⟨resampleLinear buf.samples s, buf.sample_rate⟩, ?_, ?_⟩
  · simp only [applyEffect, applySpeed, hl, Option.getD_some]
    rw [if_neg hs0, clampQ_of_mem (1/10) 4 s h1 h2]
  · exact length_resampleLinear buf.samples s

/-- Witness for C3: a 4-sample buffer at speed_factor 2 yields
round (4 / 2) = 2 output samples. -/
theorem speed_output_length_witness :
    ([("speed_factor", (2:ℚ))].lookup "speed_factor" = some 2 ∧
      (1:ℚ)/10 ≤ 2 ∧ (2:ℚ) ≤ 4) ∧
    ∃ out, applyEffect .speed ⟨[0, 1, 2, 3], 8⟩ [("speed_factor", 2)] = Except.ok out ∧
      out.samples.length =
        (round (((SampleBuffer.mk [0, 1, 2, 3] 8).samples.length : ℚ) / 2)).toNat :=
  ⟨⟨rfl, by norm_num, by norm_num⟩,
    speed_output_length ⟨[0, 1, 2, 3], 8⟩ [("speed_factor", 2)] 2 rfl
      (by norm_num) (by norm_num)⟩

/-- C4: for every buffer and every semitones value, PitchShiftEffect.apply
succeeds and returns a buffer with exactly the sample count and sample
rate of the input; inputs shorter than one analysis frame are zero-padded
internally and truncated back to the original length. -/
theorem pitch_preserves_length (buf : SampleBuffer) (ps : Params) :
    ∃ out, applyEffect .pitch buf ps = Except.ok out ∧
      out.samples.length = buf.samples.length ∧ out.sample_rate = buf.sample_rate := by
  refine ⟨_, applyPitch_ok buf ps, ?_, rfl⟩
  exact length_fitLength _ _

/-- C5: PitchShiftEffect.apply with semitones = 0 is a near-identity: the
output has exactly the length and sample rate of the input and each sample
differs from the input by less than 1/1000 (in this exact-rational model
the samples are reproduced exactly). -/
theorem pitch_zero_semitones_identity (buf : SampleBuffer) :
    ∃ out, applyEffect .pitch buf [("semitones", 0)] = Except.ok out ∧
      out.sample_rate = buf.sample_rate ∧ out.samples = buf.samples ∧
      ∀ i, |out.samples.getD i 0 - buf.samples.getD i 0| < 1/1000 := by
  have hkey : (([("semitones", (0:ℚ))]).lookup "semitones").getD 0 = 0 := rfl
  have h : applyPitch buf [("semitones", 0)] = Except.ok ⟨buf.samples, buf.sample_rate⟩ := by
    rw [applyPitch_ok, hkey, pitchRatioOf_zero]
    norm_num [resampleLinear_one, fitLength_padTo]
  refine ⟨⟨buf.samples, buf.sample_rate⟩, h, rfl, rfl, ?_⟩
  intro i
  simp

/-- C6: for every effect, every buffer and every parameter map, a
successful apply returns a buffer whose sample rate equals that of the
input. -/
theorem effects_preserve_sample_rate (kind : EffectKind) (buf : SampleBuffer)
    (ps : Params) (out : SampleBuffer) (h : applyEffect kind buf ps = Except.ok out) :
    out.sample_rate = buf.sample_rate := by
  cases kind
  case robot =>
    simp only [applyEffect, applyRobot] at h
    split at h
    · exact Except.noConfusion h
    · injection h with h2
      subst h2
      rfl
  case pitch =>
    rw [show applyEffect .pitch = applyPitch from rfl, applyPitch_ok] at h
    injection h with h2
    subst h2
    rfl
  case speed =>
    simp only [applyEffect, applySpeed] at h
    split at h
    · exact Except.noConfusion h
    · injection h with h2
      subst h2
      rfl
  case echo =>
    simp only [applyEffect, applyEcho] at h
    split at h
    · exact Except.noConfusion h
    · injection h with h2
      subst h2
      rfl

/-- Witness for C6: RobotEffect on a one-sample buffer at default
parameters succeeds, and the theorem applies to that run. -/
theorem effects_preserve_sample_rate_witness :
    applyEffect .robot ⟨[1], 10⟩ [] = Except.ok ⟨[1], 10⟩ ∧
    (SampleBuffer.mk [1] 10).sample_rate = (SampleBuffer.mk [1] 10).sample_rate := by
  have hrun : applyEffect .robot ⟨[1], 10⟩ [] = Except.ok ⟨[1], 10⟩ := by
    simp [applyEffect, applyRobot, clampQ, squareCarrier, fracPart,
      List.range_succ, List.range_zero]
  exact ⟨hrun, effects_preserve_sample_rate .robot ⟨[1], 10⟩ [] ⟨[1], 10⟩ hrun⟩

/-- C7: each effect raises InvalidParameter exactly at its documented
hard-stability violation — SpeedChangeEffect iff the supplied speed_factor
(default 1 when missing) is ≤ 0, EchoEffect iff the supplied delay_seconds
(default 0.5) is ≤ 0, and RobotEffect iff the supplied carrier_freq_hz
(default 200) is ≤ 0. -/
theorem hard_stability_rejections (buf : SampleBuffer) (ps : Params) :
    (applyEffect .speed buf ps = Except.error Err.invalidParameter ↔
      (ps.lookup "speed_factor").getD 1 ≤ 0) ∧
    (applyEffect .echo buf ps = Except.error Err.invalidParameter ↔
      (ps.lookup "delay_seconds").getD (1/2) ≤ 0) ∧
    (applyEffect .robot buf ps = Except.error Err.invalidParameter ↔
      (ps.lookup "carrier_freq_hz").getD 200 ≤ 0) := by
  refine ⟨?_, ?_, ?_⟩
  · simp only [applyEffect, applySpeed]
    by_cases h : (ps.lookup "speed_factor").getD 1 ≤ 0
    · simp [h]
    · simp [h]
  · simp only [applyEffect, applyEcho]
    by_cases h : (ps.lookup "delay_seconds").getD (1/2) ≤ 0
    · simp [h]
    · simp [h]
  · simp only [applyEffect, applyRobot]
    by_cases h : (ps.lookup "carrier_freq_hz").getD 200 ≤ 0
    · simp [h]
    · simp [h]

/-- C8: process_audio fails with UnknownEffect for every identifier outside
the registry, and the registry resolves each of the four registered
identifiers to its effect. -/
theorem unknown_effect_dispatch :
    (∀ (id : String) (fs : FileSys) (path : String) (ps : Params),
        id ∉ (["robot", "pitch", "speed", "echo"] : List String) →
        process_audio fs path id ps = Except.error Err.unknownEffect) ∧
    (lookupEffect "robot" = some EffectKind.robot ∧
     lookupEffect "pitch" = some EffectKind.pitch ∧
     lookupEffect "speed" = some EffectKind.speed ∧
     lookupEffect "echo" = some EffectKind.echo) := by
  constructor
  · intro id fs path ps h
    simp only [List.mem_cons, List.mem_singleton] at h
    push_neg at h
    obtain ⟨h1, h2, h3, h4, -⟩ := h
    unfold process_audio lookupEffect
    rw [if_neg h1, if_neg h2, if_neg h3, if_neg h4]
  · exact ⟨rfl, rfl, rfl, rfl⟩

/-- Witness for C8: "flanger" is not a registered identifier and is
rejected with UnknownEffect. -/
theorem unknown_effect_dispatch_witness :
    ("flanger" ∉ (["robot", "pitch", "speed", "echo"] : List String)) ∧
    process_audio (fun _ => Option.none) "p" "flanger" [] = Except.error Err.unknownEffect := by
  have hnm : "flanger" ∉ (["robot", "pitch", "speed", "echo"] : List String) := by decide
  exact ⟨hnm, unknown_effect_dispatch.1 "flanger" (fun _ => Option.none) "p" [] hnm⟩

/-- C9: every effect, given the zero-length buffer (any sample rate) and any
parameter map as delivered by the processor boundary (clamped, with schema
defaults for missing keys), raises no error and returns the empty buffer
with the sample rate of the input. -/
theorem empty_buffer_graceful (sr : ℕ) (ps : Params) (kind : EffectKind) :
    applyEffect kind ⟨[], sr⟩ (clampParams (effectSchema kind) ps) =
      Except.ok ⟨[], sr⟩ := by
  cases kind
  case robot =>
    simp only [applyEffect, effectSchema, applyRobot, clampParams_robot_freq]
    rw [if_neg (not_le.mpr (clampQ_pos 50 2000 _ (by norm_num)))]
    rfl
  case pitch =>
    simp only [applyEffect, effectSchema]
    rw [applyPitch_ok]
    simp [fitLength_zero]
  case speed =>
    simp only [applyEffect, effectSchema, applySpeed, clampParams_speed_factor]
    rw [if_neg (not_le.mpr (clampQ_pos (1/10) 4 _ (by norm_num)))]
    rw [resampleLinear_nil]
  case echo =>
    simp only [applyEffect, effectSchema, applyEcho, clampParams_echo_delay]
    rw [if_neg (not_le.mpr (clampQ_pos (1/20) 2 _ (by norm_num)))]
    rfl

/-! ### C1: what the processing call actually receives -/

/-- A concrete filesystem whose file at "in.wav" decodes to the sample 0. -/
def fsA : FileSys := fun p => if p = "in.wav" then some ⟨[0], 44100⟩ else Option.none

/-- A filesystem identical to `fsA` except for the contents of "in.wav". -/
def fsB : FileSys := fun p => if p = "in.wav" then some ⟨[1/2], 44100⟩ else Option.none

/-- A filesystem agreeing with `fsA` at "in.wav" but differing elsewhere. -/
def fsC : FileSys := fun p => if p = "in.wav" then some ⟨[0], 44100⟩ else some ⟨[], 1⟩

/-- The context of the concrete invocation: input path "in.wav", robot effect. -/
def ctx0 : Context := ⟨"in.wav", "robot"⟩

/-- C1 counterexample: the processing call of src/app.py lines 73-75 hands
`process_audio` the filesystem path stored in the context under
input_path, not an
in-memory buffer, and its result depends on the contents of the file at
that path — two runs over filesystems that differ only in the bytes stored
at "in.wav" return different buffers, so the call performs file input
rather than operating on an already-supplied buffer. -/
theorem process_audio_depends_on_file_contents :
    process_and_display_audio fsA ctx0 [] = Except.ok ⟨[0], 44100⟩ ∧
    process_and_display_audio fsB ctx0 [] = Except.ok ⟨[(1:ℚ)/2], 44100⟩ ∧
    process_and_display_audio fsA ctx0 [] ≠ process_and_display_audio fsB ctx0 [] := by
  have ha : process_and_display_audio fsA ctx0 [] = Except.ok ⟨[0], 44100⟩ := by
    simp [ process_and_display_audio, process_audio, lookupEffect, applyEffect, applyRobot,
      clampParams, clampedParamValue, clampQ, squareCarrier, fracPart, effectSchema,
      robotSchema, fsA, ctx0, List.lookup, List.range_succ, List.range_zero]
  have hb : process_and_display_audio fsB ctx0 [] = Except.ok ⟨[(1:ℚ)/2], 44100⟩ := by
    simp [ process_and_display_audio, process_audio, lookupEffect, applyEffect, applyRobot,
      clampParams, clampedParamValue, clampQ, squareCarrier, fracPart, effectSchema,
      robotSchema, fsB, ctx0, List.lookup, List.range_succ, List.range_zero]
  refine ⟨ha, hb, ?_⟩
  rw [ha, hb]
  intro h
  injection h with h2
  exact absurd (congrArg SampleBuffer.samples h2) (by simp)

/-- C1 amended: the processing call takes a filesystem path together with
the effect id and parameters; its only filesystem dependence is reading the
file at the input_path of the context through the codec load boundary — two runs
over filesystems agreeing at that path return the same buffer — and it
mutates no state (it is a pure function of the filesystem, context and
parameters). -/
theorem process_audio_reads_only_input_path (fs fs2 : FileSys) (ctx : Context)
    (ps : Params) (h : fs ctx.input_path = fs2 ctx.input_path) :
    process_and_display_audio fs ctx ps = process_and_display_audio fs2 ctx ps := by
  unfold process_and_display_audio process_audio
  rw [h]

/-- Witness for the amended C1: `fsA` and `fsC` differ away from "in.wav"
but agree there, so the two runs coincide. -/
theorem process_audio_reads_only_input_path_witness :
    fsA ctx0.input_path = fsC ctx0.input_path ∧
    process_and_display_audio fsA ctx0 [] = process_and_display_audio fsC ctx0 [] := by
  have h : fsA ctx0.input_path = fsC ctx0.input_path := by
    simp [fsA, fsC, ctx0]
  exact ⟨h, process_audio_reads_only_input_path fsA fsC ctx0 [] h⟩

/-! ### C10: the input temp file is always cleaned up -/

/-- Where, if anywhere, the body of the outer try block of `main` raises
IOError/ValueError: at `load_audio` (caught by the outer handler, src/app.py
line 184), at `process_audio` (caught by the inner handler, line 182), or at
`save_audio` (also caught by the inner handler, after the output temp file
was already created at line 77). -/
inductive FailPoint where
  | noFailure
  | atLoad
  | atProcess
  | atSave
deriving DecidableEq, Repr

/-- An uploaded file as `main` sees it: a name and a byte size. -/
structure UploadedFile where
  name : String
  size : ℕ
deriving DecidableEq, Repr

/-- Modelled from the spec: the temporary-file collaborator function
`cleanup_temp_files` (utils.file_utils is not under `src/`) deletes the
named scratch files from the set of existing files. -/
def cleanup_temp_files (paths : List String) (files : List String) : List String :=
  files.filter (fun f => !(paths.contains f))

/-- The scratch path `save_uploaded_file` stores the upload under. -/
def saved_input_path : String := "tmp_input"

/-- The scratch path the output temp file is created under (src/app.py
line 77). -/
def saved_output_path : String := "tmp_output"

/-- Embedding of the file lifecycle of `main` (src/app.py lines 140-187),
tracking which temp files exist when handling completes.  A missing or
oversized upload returns before any file is saved; otherwise the upload is
saved to `saved_input_path`, the body runs to the given failure point (the
output temp file exists only once line 77 ran; on success it is cleaned at
line 181), both exception handlers swallow IOError/ValueError, and the
`finally` block (line 187) deletes the input temp file. -/
def main_run (maxSize : ℕ) (file : Option UploadedFile) (fp : FailPoint) : List String :=
  match file with
  | Option.none => []
  | some f =>
    if maxSize < f.size then []
    else
      let files := [saved_input_path]
      let afterTry :=
        match fp with
        | .atLoad => files
        | .atProcess => files
        | .atSave => files ++ [saved_output_path]
        | .noFailure => cleanup_temp_files [saved_output_path] (files ++ [saved_output_path])
      cleanup_temp_files [saved_input_path] afterTry

/-- C10: for every upload that passes the size check, the input temp file
does not survive `main` — neither on success nor when loading or processing
raises IOError/ValueError. -/
theorem main_cleans_input_tempfile (maxSize : ℕ) (f : UploadedFile) (fp : FailPoint)
    (h : f.size ≤ maxSize) :
    saved_input_path ∉ main_run maxSize (some f) fp := by
  simp only [main_run]
  rw [if_neg (not_lt.mpr h)]
  cases fp <;> decide

/-- Witness for C10: a 5-byte upload under a 10-byte limit, failing at
load, leaves no input temp file behind. -/
theorem main_cleans_input_tempfile_witness :
    (UploadedFile.mk "a.wav" 5).size ≤ 10 ∧
    saved_input_path ∉ main_run 10 (some ⟨"a.wav", 5⟩) FailPoint.atLoad := by
  have h : (UploadedFile.mk "a.wav" 5).size ≤ 10 := by norm_num
  exact ⟨h, main_cleans_input_tempfile 10 ⟨"a.wav", 5⟩ FailPoint.atLoad h⟩

end Vocoder
